import Mathlib

/-!
Shallow embedding of `src/python/undistorter.py` (UpDrive_tools).

The script extracts per-camera omnidirectional calibration records from a
parsed YAML document (`camera_matrix`), rectifies single images
(`undistort`), and batch-processes four camera-slot folders (`main`).
Numeric values are modelled as rationals (exact arithmetic); numpy arrays
are modelled as a shape together with flat row-major data.
-/

/-- A parsed YAML value, as produced by `yaml.safe_load`: numbers, sequences
and string-keyed mappings (the only shapes the calibration document uses). -/
inductive Yaml where
  | num (q : ℚ)
  | list (xs : List Yaml)
  | map (kvs : List (String × Yaml))

/-- Python `d[k]` on a dict: the value at key `k`, or an error (`none`,
standing for the `KeyError`/`TypeError` the source catches) when the key is
absent or the value is not a mapping. -/
def Yaml.getKey : Yaml → String → Option Yaml
  | .map kvs, k => (kvs.find? (fun p => p.1 == k)).map Prod.snd
  | _, _ => none

/-- Python list indexing `xs[i]`: nonnegative indices from the front,
negative indices from the back (`xs[-1]` is the last element), `none` for
the `IndexError` raised out of range. -/
def pyIdx (xs : List α) (i : ℤ) : Option α :=
  if 0 ≤ i then xs.get? i.toNat
  else if 0 ≤ (xs.length : ℤ) + i then xs.get? ((xs.length : ℤ) + i).toNat
  else none

/-- Python `y[i]` for an integer `i`: list indexing when `y` is a sequence,
an error otherwise (caught by the source's bare `except`). -/
def Yaml.getIdx : Yaml → ℤ → Option Yaml
  | .list xs, i => pyIdx xs i
  | _, _ => none

/-- A numeric YAML scalar; anything else is an error where a number is
required. -/
def Yaml.asNum : Yaml → Option ℚ
  | .num q => some q
  | _ => none

/-- A numpy ndarray: its shape and its entries flattened in row-major
order. -/
structure NDArray where
  shape : List ℕ
  data : List ℚ
  deriving DecidableEq, Repr

/-- All elements of a YAML sequence as numbers, or `none` if any is not a
number. -/
def numList : List Yaml → Option (List ℚ)
  | [] => some []
  | y :: ys => do
    let q ← y.asNum
    let qs ← numList ys
    return q :: qs

/-- All elements of a YAML sequence as numeric rows, or `none` if any is not
a flat numeric list. -/
def rowList : List Yaml → Option (List (List ℚ))
  | [] => some []
  | .list ys :: rest => do
    let r ← numList ys
    let rs ← rowList rest
    return r :: rs
  | _ => none

/-- `np.asarray` on a YAML value: a numeric scalar gives a 0-d array, a flat
list of numbers a 1-d array, a rectangular list of numeric lists a 2-d
array; anything else (mixed or ragged nesting, mappings) is an error. -/
def asarray (y : Yaml) : Option NDArray :=
  match y with
  | .num q => some ⟨[], [q]⟩
  | .list xs =>
    match numList xs with
    | some qs => some ⟨[xs.length], qs⟩
    | none =>
      match rowList xs with
      | some rows =>
        match rows with
        | [] => none
        | r :: rs =>
          if rs.all (fun r2 => r2.length = r.length) then
            some ⟨[xs.length, r.length], (r :: rs).flatten⟩
          else none
      | none => none
  | .map _ => none

/-- Numpy `a[:, np.newaxis]`: inserts an axis of size 1 after the first;
on a 0-d array this is the `IndexError` ("too many indices") the source
catches. -/
def newaxisCol (a : NDArray) : Option NDArray :=
  match a.shape with
  | [] => none
  | n :: rest => some ⟨n :: 1 :: rest, a.data⟩

/-- The navigation `calibration_dict["ncameras"][0]["cameras"]` — the
document's camera list. -/
def getCamerasList (calibration_dict : Yaml) : Option Yaml := do
  let ncams ← calibration_dict.getKey "ncameras"
  let first ← ncams.getIdx 0
  first.getKey "cameras"

/-- The navigation
`calibration_dict["ncameras"][0]["cameras"][int(camera_index)]["camera"]`
performed at the top of `camera_matrix`. -/
def getCameraModel (calibration_dict : Yaml) (camera_index : ℤ) : Option Yaml := do
  let cams ← getCamerasList calibration_dict
  let entry ← cams.getIdx camera_index
  entry.getKey "camera"

/-- The body of `camera_matrix`'s `try` block after the navigation, in
source order: build `K` from intrinsics data indices 1,3,2,4; copy `K` and
divide the two focal entries (flat row-major indices 0 and 4) by
`output_scale`; reshape the distortion data into a column via
`[:, np.newaxis]`; take `xi` as `np.asarray` of intrinsics data index 0.
`none` stands for any exception, caught by the source's bare `except`. -/
def extractCam (camera_model : Yaml) (output_scale : ℚ) : Option (List NDArray) := do
  let intr ← camera_model.getKey "intrinsics" >>= (·.getKey "data")
  let fx ← intr.getIdx 1 >>= Yaml.asNum
  let cx ← intr.getIdx 3 >>= Yaml.asNum
  let fy ← intr.getIdx 2 >>= Yaml.asNum
  let cy ← intr.getIdx 4 >>= Yaml.asNum
  let K : NDArray := ⟨[3, 3], [fx, 0, cx, 0, fy, cy, 0, 0, 1]⟩
  let K_scaled : NDArray :=
    ⟨K.shape, ((K.data.set 0 (K.data.getD 0 0 / output_scale)).set 4
      ((K.data.getD 4 0) / output_scale))⟩
  let distData ← (camera_model.getKey "distortion" >>= (·.getKey "parameters")) >>=
    (·.getKey "data")
  let D ← asarray distData >>= newaxisCol
  let xiRaw ← intr.getIdx 0
  let xi ← asarray xiRaw
  return [K, D, xi, K_scaled]

/-- `camera_matrix(calibration_dict, camera_index, output_scale)`: the
calibration record `[K, D, xi, K_scaled]`, or `[]` when any step of the
extraction raises (the source catches every exception and returns `[]`). -/
def camera_matrix (calibration_dict : Yaml) (camera_index : ℤ)
    (output_scale : ℚ) : List NDArray :=
  match getCameraModel calibration_dict camera_index >>=
      (fun cm => extractCam cm output_scale) with
  | some r => r
  | none => []

/-- A decoded raster image: only its dimensions matter to the script (pixel
contents flow through `cv2.remap` untouched by any logic of this repository). -/
structure Image where
  height : ℕ
  width : ℕ
  channels : ℕ
  deriving DecidableEq, Repr

/-- `np.eye(3)`. -/
def eye3 : NDArray := ⟨[3, 3], [1, 0, 0, 0, 1, 0, 0, 0, 1]⟩

/-- Model of `cv2.omnidir.initUndistortRectifyMap(K, D, xi, R, K_scaled,
size, CV_16SC2, RECTIFY_PERSPECTIVE)`: an external OpenCV routine.  Only its
size behaviour is relevant to this repository's logic: for
`size = (width, height)` it returns lookup maps of spatial shape
`height × width` (`map1` with a trailing coordinate-pair axis).  The map
contents are the omnidirectional back-projection table, abstracted here as
zeros since no claim depends on individual map entries. -/
def initUndistortRectifyMap (_K _D _xi _R _Kscaled : NDArray)
    (size : ℕ × ℕ) : NDArray × NDArray :=
  (⟨[size.2, size.1, 2], List.replicate (size.2 * size.1 * 2) 0⟩,
   ⟨[size.2, size.1], List.replicate (size.2 * size.1) 0⟩)

/-- Model of `cv2.remap(image, map1, map2, INTER_LINEAR, BORDER_CONSTANT)`:
the output image has the spatial size of the lookup map and the channel
count of the source. -/
def remap (image : Image) (map1 : NDArray) (_map2 : NDArray) : Image :=
  ⟨map1.shape.getD 0 0, map1.shape.getD 1 0, image.channels⟩

/-- `undistort(image_path, camera_model)`.  The filesystem is abstracted by
passing `cv2.imread`'s answer as `loadResult` (`none` = decode failure).
Returns the result together with a flag recording whether `cv2.imread` was
reached, so that "fails before attempting to load the image" is expressible.
Mirrors the source: length check on `camera_model`, then shape checks
(`K` 3×3, `D` 4×1, `xi` 0-d, `K_scaled` 3×3), then the load, then the
rectification. -/
def undistort (loadResult : Option Image) (camera_model : List NDArray) :
    Option Image × Bool :=
  match camera_model with
  | [K, D, xi, K_scaled] =>
    if K.shape ≠ [3, 3] ∨ D.shape ≠ [4, 1] ∨ xi.shape ≠ [] ∨ K_scaled.shape ≠ [3, 3] then
      (none, false)
    else
      match loadResult with
      | none => (none, true)
      | some image =>
        let maps := initUndistortRectifyMap K D xi eye3 K_scaled (image.width, image.height)
        (some (remap image maps.1 maps.2), true)
  | _ => (none, false)

/-- One input sub-folder of the batch run: its camera slot index and its
`.png` files in sorted order, each paired with the image `cv2.imread` would
decode for it (`none` = unreadable). -/
structure SlotFolder where
  index : ℤ
  files : List (String × Option Image)

/-- An observable action of the batch loop in `main`. -/
inductive Event where
  | wrote (slot : ℤ) (file : String)
  | warned (file : String)
  | abort (slot : ℤ)
  deriving DecidableEq, Repr

/-- The per-slot loop at the bottom of `main`, as the trace of events it
performs.  For each folder in order: extract the calibration record with
`camera_matrix`; if it does not have 4 entries, print the error and
`sys.exit()` (the `abort` event, ending the trace); otherwise run
`undistort` on every file, warning on failure and writing the result
otherwise.  (`imwrite` failures and the folder-level `except` of the source
are not reached in this model because the modelled `undistort` is total and
writes are abstracted as always succeeding; no claim concerns them.) -/
def processSlots (calibration_parameters : Yaml) (output_scale : ℚ) :
    List SlotFolder → List Event
  | [] => []
  | sf :: rest =>
    let camera_model := camera_matrix calibration_parameters sf.index output_scale
    if camera_model.length ≠ 4 then
      [Event.abort sf.index]
    else
      (sf.files.map (fun fl =>
        match (undistort fl.2 camera_model).1 with
        | none => Event.warned fl.1
        | some _ => Event.wrote sf.index fl.1)) ++
      processSlots calibration_parameters output_scale rest

/-- The `camera` object of a well-formed camera entry, §6 of the spec:
`intrinsics.data = [ξ, fx, fy, cx, cy]` and `distortion.parameters.data` a
numeric list `dist`. -/
def camBody (xi fx fy cx cy : ℚ) (dist : List ℚ) : Yaml :=
  .map
    [("intrinsics", .map [("data", .list [.num xi, .num fx, .num fy, .num cx, .num cy])]),
     ("distortion", .map [("parameters", .map [("data", .list (dist.map Yaml.num))])])]

/-- A well-formed camera entry of the document's camera list. -/
def mkCamera (xi fx fy cx cy : ℚ) (dist : List ℚ) : Yaml :=
  .map [("camera", camBody xi fx fy cx cy dist)]

/-- A calibration document whose camera list is the given entries. -/
def mkDoc (cams : List Yaml) : Yaml :=
  .map [("ncameras", .list [.map [("cameras", .list cams)]])]

/-! ### Helper lemmas -/

theorem numList_map_num (l : List ℚ) : numList (l.map Yaml.num) = some l := by
  induction l with
  | nil => rfl
  | cons a t ih => simp [numList, Yaml.asNum, ih]

/-- Evaluation of `camera_matrix` on any document whose navigation at
`camera_index` reaches a well-formed camera object. -/
theorem camera_matrix_wellFormed (d : Yaml) (i : ℤ) (s xiq fx fy cx cy : ℚ)
    (dist : List ℚ)
    (hcam : getCameraModel d i = some (camBody xiq fx fy cx cy dist)) :
    camera_matrix d i s =
      [⟨[3, 3], [fx, 0, cx, 0, fy, cy, 0, 0, 1]⟩, ⟨[dist.length, 1], dist⟩,
       ⟨[], [xiq]⟩, ⟨[3, 3], [fx / s, 0, cx, 0, fy / s, cy, 0, 0, 1]⟩] := by
  unfold camera_matrix
  rw [hcam]
  show (match extractCam (camBody xiq fx fy cx cy dist) s with
        | some r => r | none => []) = _
  simp [extractCam, camBody, Yaml.getKey, Yaml.getIdx, pyIdx, Yaml.asNum, asarray,
    newaxisCol, numList_map_num]

/-- Inversion: a successful `extractCam` pins down the shape of the result
and forces every intrinsics read (indices 1, 3, 2, 4) to have succeeded. -/
theorem extractCam_some_inv {cm : Yaml} {s : ℚ} {r : List NDArray}
    (h : extractCam cm s = some r) :
    ∃ intr fx cx fy cy D xia,
      (cm.getKey "intrinsics" >>= (·.getKey "data")) = some intr ∧
      (intr.getIdx 1 >>= Yaml.asNum) = some fx ∧
      (intr.getIdx 3 >>= Yaml.asNum) = some cx ∧
      (intr.getIdx 2 >>= Yaml.asNum) = some fy ∧
      (intr.getIdx 4 >>= Yaml.asNum) = some cy ∧
      r = [⟨[3, 3], [fx, 0, cx, 0, fy, cy, 0, 0, 1]⟩, D, xia,
           ⟨[3, 3], [fx / s, 0, cx, 0, fy / s, cy, 0, 0, 1]⟩] := by
  simp only [extractCam, bind, pure, Option.bind_eq_some, Option.some.injEq] at h
  obtain ⟨intr, hintr, fx, hfx, cx, hcx, fy, hfy, cy, hcy, dd, hdd, D, hD, xr, hxr,
    xia, hxia, hr⟩ := h
  refine ⟨intr, fx, cx, fy, cy, D, xia, Option.bind_eq_some.mpr hintr,
    Option.bind_eq_some.mpr hfx, Option.bind_eq_some.mpr hcx,
    Option.bind_eq_some.mpr hfy, Option.bind_eq_some.mpr hcy, ?_⟩
  exact hr.symm

/-- Inversion: a nonempty `camera_matrix` result comes from a successful
navigation followed by a successful extraction. -/
theorem camera_matrix_cons_inv {d : Yaml} {i : ℤ} {s : ℚ} {K : NDArray}
    {rest : List NDArray} (h : camera_matrix d i s = K :: rest) :
    ∃ cm, getCameraModel d i = some cm ∧ extractCam cm s = some (K :: rest) := by
  unfold camera_matrix at h
  cases hg : getCameraModel d i >>= (fun cm => extractCam cm s) with
  | none => rw [hg] at h; exact absurd h (by simp)
  | some r =>
    rw [hg] at h
    obtain ⟨cm, hcm, hex⟩ := Option.bind_eq_some.mp hg
    exact ⟨cm, hcm, h ▸ hex⟩

/-- When `camera_matrix` fails for the slot of some folder in the list, that
is the only way an `abort` event can enter its trace. -/
theorem abort_mem_imp_fail {doc : Yaml} {s : ℚ} {slots : List SlotFolder} {i : ℤ}
    (h : Event.abort i ∈ processSlots doc s slots) :
    (camera_matrix doc i s).length ≠ 4 := by
  induction slots with
  | nil => simp [processSlots] at h
  | cons sf rest ih =>
    simp only [processSlots] at h
    split at h
    · rename_i hfail
      simp only [List.mem_singleton, Event.abort.injEq] at h
      exact h ▸ hfail
    · rcases List.mem_append.mp h with hl | hr
      · obtain ⟨fl, _, heq⟩ := List.mem_map.mp hl
        cases hu : (undistort fl.2 (camera_matrix doc sf.index s)).1 <;>
          rw [hu] at heq <;> simp at heq
      · exact ih hr

/-! ### Shared example inputs -/

/-- A calibration document with one well-formed camera:
ξ = 1/2, (fx, fy, cx, cy) = (800, 810, 320, 240), distortion [1, 2, 3, 4]. -/
def exDoc : Yaml := mkDoc [mkCamera (1/2) 800 810 320 240 [1, 2, 3, 4]]

/-- Like `exDoc` but with a distortion data array of length 3. -/
def exDocDist3 : Yaml := mkDoc [mkCamera (1/2) 800 810 320 240 [1, 2, 3]]

/-! ### Claims -/

/-- C1: for every document with a well-formed camera record at the requested
slot and every positive output scale, `camera_matrix` returns a record whose
`K_scaled` has entry (0,0) equal to `K`'s entry (0,0) divided by the scale
and entry (1,1) equal to `K`'s entry (1,1) divided by the scale, while every
other entry of `K_scaled` — the principal-point column and the bottom row —
equals the corresponding entry of `K`. -/
theorem camera_matrix_scales_focal_only (d : Yaml) (i : ℤ)
    (s xiq fx fy cx cy e0 e1 e2 e3 : ℚ)
    (hcam : getCameraModel d i = some (camBody xiq fx fy cx cy [e0, e1, e2, e3]))
    (hs : 0 < s) :
    camera_matrix d i s =
      [⟨[3, 3], [fx, 0, cx, 0, fy, cy, 0, 0, 1]⟩, ⟨[4, 1], [e0, e1, e2, e3]⟩,
       ⟨[], [xiq]⟩, ⟨[3, 3], [fx / s, 0, cx, 0, fy / s, cy, 0, 0, 1]⟩] := by
  simpa using camera_matrix_wellFormed d i s xiq fx fy cx cy [e0, e1, e2, e3] hcam

/-- Witness for C1 at a concrete document and scale 5. -/
theorem camera_matrix_scales_focal_only_witness :
    camera_matrix exDoc 0 5 =
      [⟨[3, 3], [800, 0, 320, 0, 810, 240, 0, 0, 1]⟩, ⟨[4, 1], [1, 2, 3, 4]⟩,
       ⟨[], [1/2]⟩, ⟨[3, 3], [800 / 5, 0, 320, 0, 810 / 5, 240, 0, 0, 1]⟩] :=
  camera_matrix_scales_focal_only exDoc 0 5 (1/2) 800 810 320 240 1 2 3 4 rfl
    (by norm_num)

/-- C3: for a well-formed camera record, `camera_matrix` takes intrinsics
data element 0 as the mirror parameter ξ and elements 1–4 as
(fx, fy, cx, cy), building `K = [[fx,0,cx],[0,fy,cy],[0,0,1]]` with zero
off-diagonals and bottom row [0,0,1], and reshapes the 4-element distortion
array into a 4×1 column `D`. -/
theorem camera_matrix_reads_intrinsics (d : Yaml) (i : ℤ)
    (s xiq fx fy cx cy e0 e1 e2 e3 : ℚ)
    (hcam : getCameraModel d i = some (camBody xiq fx fy cx cy [e0, e1, e2, e3])) :
    (camera_matrix d i s).take 3 =
      [⟨[3, 3], [fx, 0, cx, 0, fy, cy, 0, 0, 1]⟩, ⟨[4, 1], [e0, e1, e2, e3]⟩,
       ⟨[], [xiq]⟩] := by
  simp [camera_matrix_wellFormed d i s xiq fx fy cx cy [e0, e1, e2, e3] hcam]

/-- Witness for C3 at a concrete document. -/
theorem camera_matrix_reads_intrinsics_witness :
    (camera_matrix exDoc 0 5).take 3 =
      [⟨[3, 3], [800, 0, 320, 0, 810, 240, 0, 0, 1]⟩, ⟨[4, 1], [1, 2, 3, 4]⟩,
       ⟨[], [1/2]⟩] :=
  camera_matrix_reads_intrinsics exDoc 0 5 (1/2) 800 810 320 240 1 2 3 4 rfl

/-- C5: with output scale 1, the returned `K_scaled` equals `K` exactly. -/
theorem camera_matrix_scale_one_id (d : Yaml) (i : ℤ) (K D xia Ks : NDArray)
    (h : camera_matrix d i 1 = [K, D, xia, Ks]) : Ks = K := by
  obtain ⟨cm, hcm, hex⟩ := camera_matrix_cons_inv h
  obtain ⟨intr, fx, cx, fy, cy, D2, xia2, -, -, -, -, -, hr⟩ := extractCam_some_inv hex
  simp only [List.cons.injEq, and_true] at hr
  obtain ⟨hK, -, -, hKs⟩ := hr
  rw [hKs, hK]
  norm_num

/-- Witness for C5 at a concrete document. -/
theorem camera_matrix_scale_one_id_witness :
    (⟨[3, 3], [800 / 1, 0, 320, 0, 810 / 1, 240, 0, 0, 1]⟩ : NDArray) =
      ⟨[3, 3], [800, 0, 320, 0, 810, 240, 0, 0, 1]⟩ :=
  camera_matrix_scale_one_id exDoc 0
    ⟨[3, 3], [800, 0, 320, 0, 810, 240, 0, 0, 1]⟩ ⟨[4, 1], [1, 2, 3, 4]⟩
    ⟨[], [1/2]⟩ ⟨[3, 3], [800 / 1, 0, 320, 0, 810 / 1, 240, 0, 0, 1]⟩ rfl

/-- C4: `undistort` produces no image whenever the record's `D` is not 4×1
or `K` is not 3×3 or `K_scaled` is not 3×3 (and it never reaches the image
load in that case). -/
theorem undistort_shape_guard (li : Option Image) (K D xia Ks : NDArray)
    (h : D.shape ≠ [4, 1] ∨ K.shape ≠ [3, 3] ∨ Ks.shape ≠ [3, 3]) :
    undistort li [K, D, xia, Ks] = (none, false) := by
  simp only [undistort]
  rw [if_pos (by tauto)]

/-- Witness for C4: a 3×1 distortion vector is rejected. -/
theorem undistort_shape_guard_witness :
    undistort (some ⟨480, 640, 3⟩)
      [⟨[3, 3], [800, 0, 320, 0, 810, 240, 0, 0, 1]⟩, ⟨[3, 1], [1, 2, 3]⟩,
       ⟨[], [1/2]⟩, ⟨[3, 3], [160, 0, 320, 0, 162, 240, 0, 0, 1]⟩] = (none, false) :=
  undistort_shape_guard (some ⟨480, 640, 3⟩) _ _ _ _ (Or.inl (by decide))

/-- C6: for a record of valid shapes and a successfully decoded image of
size (H, W), `undistort` returns an image of exactly the same spatial size
(H, W). -/
theorem undistort_preserves_dims (img : Image) (K D xia Ks : NDArray)
    (hK : K.shape = [3, 3]) (hD : D.shape = [4, 1]) (hxi : xia.shape = [])
    (hKs : Ks.shape = [3, 3]) :
    undistort (some img) [K, D, xia, Ks] =
      (some ⟨img.height, img.width, img.channels⟩, true) := by
  simp only [undistort]
  rw [if_neg (by simp [hK, hD, hxi, hKs])]
  rfl

/-- Witness for C6 on a 480×640 image. -/
theorem undistort_preserves_dims_witness :
    undistort (some ⟨480, 640, 3⟩)
      [⟨[3, 3], [800, 0, 320, 0, 810, 240, 0, 0, 1]⟩, ⟨[4, 1], [1, 2, 3, 4]⟩,
       ⟨[], [1/2]⟩, ⟨[3, 3], [160, 0, 320, 0, 162, 240, 0, 0, 1]⟩] =
      (some ⟨480, 640, 3⟩, true) :=
  undistort_preserves_dims ⟨480, 640, 3⟩ _ _ _ _ rfl rfl rfl rfl

/-- C10: any `camera_model` that is not a list of exactly 4 entries — in
particular the `[]` error value of a failed `camera_matrix` — makes
`undistort` return `None` without ever reaching the image load (flag
`false`), so an extraction failure can never reach the remap step. -/
theorem undistort_arity_guard (li : Option Image) (cm : List NDArray)
    (h : cm.length ≠ 4) : undistort li cm = (none, false) := by
  rcases cm with _ | ⟨a, _ | ⟨b, _ | ⟨c, _ | ⟨d, _ | ⟨e, rest⟩⟩⟩⟩⟩
  · rfl
  · rfl
  · rfl
  · rfl
  · exact absurd rfl h
  · rfl

/-- Witness for C10 on the empty error record. -/
theorem undistort_arity_guard_witness :
    undistort (some ⟨480, 640, 3⟩) [] = (none, false) :=
  undistort_arity_guard (some ⟨480, 640, 3⟩) [] (by decide)

/-- C8: `camera_matrix` is a pure function of its arguments — in the
embedding it performs only read accesses (`getKey`/`getIdx`) on the
document and builds fresh arrays, so the document is never mutated — and
its result depends on the document only through the camera object reached
by the fixed navigation path: two documents agreeing there give identical
records. -/
theorem camera_matrix_frame (d1 d2 : Yaml) (i : ℤ) (s : ℚ)
    (h : getCameraModel d1 i = getCameraModel d2 i) :
    camera_matrix d1 i s = camera_matrix d2 i s := by
  unfold camera_matrix
  rw [h]

/-- Witness for C8: a document with an extra unrelated key yields the same
record. -/
theorem camera_matrix_frame_witness :
    camera_matrix exDoc 0 5 =
      camera_matrix (Yaml.map
        [("ncameras", .list [.map [("cameras",
            .list [mkCamera (1/2) 800 810 320 240 [1, 2, 3, 4]])]]),
         ("unrelated", .num 0)]) 0 5 :=
  camera_matrix_frame exDoc _ 0 5 rfl

/-- C2 (amended): `camera_matrix` fails (returns `[]`) when the camera list
has fewer than `slotIndex + 1` entries (for nonnegative `slotIndex`), and
when the intrinsics data array has fewer than 5 elements; but a distortion
data array of length other than 4 does NOT make extraction fail — it yields
a full 4-entry record whose `D` has shape `length × 1`, which `undistort`
subsequently rejects (no image produced). -/
theorem camera_matrix_failure_conditions :
    (∀ (d : Yaml) (i : ℤ) (s : ℚ) (cams : List Yaml),
      getCamerasList d = some (.list cams) → 0 ≤ i → (cams.length : ℤ) ≤ i →
      camera_matrix d i s = []) ∧
    (∀ (d : Yaml) (i : ℤ) (s : ℚ) (cm : Yaml) (intr : List Yaml),
      getCameraModel d i = some cm →
      (cm.getKey "intrinsics" >>= (·.getKey "data")) = some (.list intr) →
      intr.length < 5 → camera_matrix d i s = []) ∧
    (∀ (d : Yaml) (i : ℤ) (s xiq fx fy cx cy : ℚ) (dist : List ℚ) (li : Option Image),
      getCameraModel d i = some (camBody xiq fx fy cx cy dist) →
      (camera_matrix d i s).length = 4 ∧
      (dist.length ≠ 4 → (undistort li (camera_matrix d i s)).1 = none)) := by
  refine ⟨?_, ?_, ?_⟩
  · intro d i s cams hcams hi hlen
    have hnone : getCameraModel d i = none := by
      unfold getCameraModel
      rw [hcams]
      show (Yaml.list cams).getIdx i >>= (·.getKey "camera") = none
      simp only [Yaml.getIdx, pyIdx, if_pos hi]
      rw [List.get?_eq_none.mpr (by omega)]
      rfl
    unfold camera_matrix
    rw [hnone]
    rfl
  · intro d i s cm intr hcm hintr hlen
    unfold camera_matrix
    rw [hcm]
    show (match extractCam cm s with | some r => r | none => []) = []
    cases hex : extractCam cm s with
    | none => rfl
    | some r =>
      exfalso
      obtain ⟨intr2, fx, cx, fy, cy, D, xia, hintr2, -, -, -, hcy, -⟩ :=
        extractCam_some_inv hex
      rw [hintr] at hintr2
      obtain rfl : Yaml.list intr = intr2 := Option.some.inj hintr2
      obtain ⟨y, hy, -⟩ := Option.bind_eq_some.mp hcy
      simp only [Yaml.getIdx, pyIdx] at hy
      rw [if_pos (by norm_num)] at hy
      obtain ⟨hlt, -⟩ := List.get?_eq_some.mp hy
      omega
  · intro d i s xiq fx fy cx cy dist li hcam
    rw [camera_matrix_wellFormed d i s xiq fx fy cx cy dist hcam]
    refine ⟨rfl, fun hne => ?_⟩
    simp only [undistort]
    rw [if_pos]
    · right
      left
      simp [hne]

/-- Counterexample to C2 as stated: a camera record whose distortion data
has length 3 still produces a full record, not the empty list. -/
theorem camera_matrix_dist_len3_record :
    camera_matrix exDocDist3 0 2 ≠ [] ∧ (camera_matrix exDocDist3 0 2).length = 4 := by
  decide

/-- A document whose single camera's intrinsics data array has only 2
elements. -/
def exDocShortIntr : Yaml := mkDoc [Yaml.map [("camera", Yaml.map
  [("intrinsics", Yaml.map [("data", Yaml.list [Yaml.num 1, Yaml.num 2])]),
   ("distortion", Yaml.map [("parameters", Yaml.map
     [("data", Yaml.list [Yaml.num 1, Yaml.num 2, Yaml.num 3, Yaml.num 4])])])])]]

/-- Witness for C2 (amended): slot index 1 on a one-camera list fails, a
2-element intrinsics array fails, and a 3-element distortion array yields a
4-entry record that `undistort` then rejects. -/
theorem camera_matrix_failure_conditions_witness :
    camera_matrix exDoc 1 5 = [] ∧
    camera_matrix exDocShortIntr 0 5 = [] ∧
    (camera_matrix exDocDist3 0 5).length = 4 ∧
    (undistort (some ⟨480, 640, 3⟩) (camera_matrix exDocDist3 0 5)).1 = none := by
  refine ⟨?_, ?_, ?_, ?_⟩
  · exact camera_matrix_failure_conditions.1 exDoc 1 5
      [mkCamera (1/2) 800 810 320 240 [1, 2, 3, 4]] rfl (by decide) (by decide)
  · exact camera_matrix_failure_conditions.2.1 exDocShortIntr 0 5
      (Yaml.map
        [("intrinsics", Yaml.map [("data", Yaml.list [Yaml.num 1, Yaml.num 2])]),
         ("distortion", Yaml.map [("parameters", Yaml.map
           [("data", Yaml.list [Yaml.num 1, Yaml.num 2, Yaml.num 3, Yaml.num 4])])])])
      [Yaml.num 1, Yaml.num 2] rfl rfl (by decide)
  · exact (camera_matrix_failure_conditions.2.2 exDocDist3 0 5 (1/2) 800 810 320 240
      [1, 2, 3] (some ⟨480, 640, 3⟩) rfl).1
  · exact (camera_matrix_failure_conditions.2.2 exDocDist3 0 5 (1/2) 800 810 320 240
      [1, 2, 3] (some ⟨480, 640, 3⟩) rfl).2 (by decide)

/-- C9: for a camera list with `n ≥ 1` well-formed entries and any negative
slot index `i` with `-n ≤ i ≤ -1`, `camera_matrix` does not fail: Python
negative indexing makes it return the record of camera `n + i`, even though
such an index is outside the documented range `0..n-1`. -/
theorem camera_matrix_negative_index (d : Yaml) (i : ℤ) (s : ℚ) (cams : List Yaml)
    (xiq fx fy cx cy : ℚ) (dist : List ℚ)
    (hcams : getCamerasList d = some (.list cams))
    (hlo : -(cams.length : ℤ) ≤ i) (hhi : i < 0)
    (hentry : cams.get? ((cams.length : ℤ) + i).toNat =
      some (mkCamera xiq fx fy cx cy dist)) :
    camera_matrix d i s = camera_matrix d ((cams.length : ℤ) + i) s ∧
    camera_matrix d i s ≠ [] := by
  have hneg : getCameraModel d i = some (camBody xiq fx fy cx cy dist) := by
    unfold getCameraModel
    rw [hcams]
    show (Yaml.list cams).getIdx i >>= (·.getKey "camera") = _
    simp only [Yaml.getIdx, pyIdx, if_neg (by omega : ¬ 0 ≤ i),
      if_pos (by omega : 0 ≤ (cams.length : ℤ) + i)]
    rw [hentry]
    rfl
  have hpos : getCameraModel d ((cams.length : ℤ) + i) =
      some (camBody xiq fx fy cx cy dist) := by
    unfold getCameraModel
    rw [hcams]
    show (Yaml.list cams).getIdx _ >>= (·.getKey "camera") = _
    simp only [Yaml.getIdx, pyIdx, if_pos (by omega : 0 ≤ (cams.length : ℤ) + i)]
    rw [hentry]
    rfl
  rw [camera_matrix_wellFormed d i s xiq fx fy cx cy dist hneg,
      camera_matrix_wellFormed d _ s xiq fx fy cx cy dist hpos]
  exact ⟨rfl, by simp⟩

/-- Witness for C9: index -1 on a one-camera document returns camera 0's
record. -/
theorem camera_matrix_negative_index_witness :
    camera_matrix exDoc (-1) 5 =
      camera_matrix exDoc
        ((([mkCamera (1/2) 800 810 320 240 [1, 2, 3, 4]].length : ℤ)) + -1) 5 ∧
    camera_matrix exDoc (-1) 5 ≠ [] :=
  camera_matrix_negative_index exDoc (-1) 5
    [mkCamera (1/2) 800 810 320 240 [1, 2, 3, 4]]
    (1/2) 800 810 320 240 [1, 2, 3, 4] rfl (by decide) (by decide) rfl

/-- C7 (amended): a malformed calibration record for a camera slot is only
detected when the batch loop reaches that slot: the run then stops
immediately — the abort is the last event of the trace and no image of the
aborting slot is ever written — but images of slots processed earlier in the
loop may already have been written (only the upfront configuration and
folder-layout checks of `main` precede all image I/O). -/
theorem processSlots_abort_scoped (doc : Yaml) (s : ℚ) (slots : List SlotFolder)
    (i : ℤ) (h : Event.abort i ∈ processSlots doc s slots) :
    (processSlots doc s slots).getLast? = some (Event.abort i) ∧
    ∀ f, Event.wrote i f ∉ processSlots doc s slots := by
  induction slots with
  | nil => simp [processSlots] at h
  | cons sf rest ih =>
    simp only [processSlots] at h ⊢
    by_cases hcond : (camera_matrix doc sf.index s).length ≠ 4
    · rw [if_pos hcond] at h ⊢
      simp only [List.mem_singleton, Event.abort.injEq] at h
      subst h
      exact ⟨rfl, fun f => by simp⟩
    · rw [if_neg hcond] at h ⊢
      have hnotmap : Event.abort i ∉ sf.files.map (fun fl =>
          match (undistort fl.2 (camera_matrix doc sf.index s)).1 with
          | none => Event.warned fl.1
          | some _ => Event.wrote sf.index fl.1) := by
        intro hmem
        obtain ⟨fl, -, heq⟩ := List.mem_map.mp hmem
        cases hu : (undistort fl.2 (camera_matrix doc sf.index s)).1 <;>
          rw [hu] at heq <;> simp at heq
      have hrest : Event.abort i ∈ processSlots doc s rest := by
        rcases List.mem_append.mp h with hl | hr
        · exact absurd hl hnotmap
        · exact hr
      obtain ⟨hlast, hnw⟩ := ih hrest
      refine ⟨?_, ?_⟩
      · rw [List.getLast?_append_of_ne_nil _ (List.ne_nil_of_mem hrest)]
        exact hlast
      · intro f hmem
        rcases List.mem_append.mp hmem with hl | hr
        · obtain ⟨fl, -, heq⟩ := List.mem_map.mp hl
          cases hu : (undistort fl.2 (camera_matrix doc sf.index s)).1 with
          | none => rw [hu] at heq; simp at heq
          | some img =>
            rw [hu] at heq
            simp only [Event.wrote.injEq] at heq
            obtain ⟨hidx, -⟩ := heq
            refine hcond ?_
            rw [hidx]
            exact abort_mem_imp_fail hrest
        · exact hnw f hr

/-- Counterexample to C7 as stated: with a one-camera document and folders
for slots 0 and 1, the run writes slot 0's rectified image and only then
aborts on slot 1's missing calibration record — so an aborting run can have
already written images, contradicting "no image is ever written before
every fatal-error check for all four camera slots has passed". -/
theorem processSlots_write_then_abort :
    processSlots exDoc 5 [⟨0, [("a.png", some ⟨480, 640, 3⟩)]⟩, ⟨1, []⟩] =
      [Event.wrote 0 "a.png", Event.abort 1] := by
  decide

/-- Witness for C7 (amended): a run that aborts on its first slot writes
nothing. -/
theorem processSlots_abort_scoped_witness :
    (processSlots exDoc 5 [⟨1, [("a.png", some ⟨480, 640, 3⟩)]⟩]).getLast? =
      some (Event.abort 1) ∧
    ∀ f, Event.wrote 1 f ∉ processSlots exDoc 5 [⟨1, [("a.png", some ⟨480, 640, 3⟩)]⟩] :=
  processSlots_abort_scoped exDoc 5 [⟨1, [("a.png", some ⟨480, 640, 3⟩)]⟩] 1 (by decide)
